import Mathlib

/-!
Verification of the SublimeText TableEditor dialect modules
`table_multi_markdown_syntax.py` and `table_pandoc_syntax.py`.

Strings are embedded as `List Char`; Python string operations (`strip`,
`count`, indexing, `startswith`/`endswith`, membership) are translated
explicitly.  Fallible operations (Python exceptions such as the IndexError
possible in `MultiMarkdownAlignColumn.__init__`) return `Option`.
-/

/-- Column text alignment, matching `tbase.Column.ALIGN_LEFT / ALIGN_RIGHT /
ALIGN_CENTER`; a Python `None` alignment is `Option.none` of this type. -/
inductive Align
  | left
  | right
  | center
deriving DecidableEq, Repr

/-- Python whitespace characters recognised by `str.strip()` and by the
regex class `\s` (ASCII range). -/
def isPyWS (c : Char) : Bool :=
  c = ' ' || c = '\t' || c = '\n' || c = '\x0b' || c = '\x0c' || c = '\r'

/-- Python `str.strip()`: remove leading and trailing whitespace. -/
def pyStrip (s : List Char) : List Char :=
  ((s.dropWhile isPyWS).reverse.dropWhile isPyWS).reverse

/-- The branch structure of `MultiMarkdownAlignColumn.__init__` applied to
the already-stripped cell `col`: `count(':') == 2` gives Center, else a
leading colon gives Left, else a trailing colon gives Right, else no
alignment.  The element accesses `col[0]` / `col[-1]` raise IndexError on
an empty `col`, embedded here as `Option.none` of the outer `Option`. -/
def mmdAlignCore (col : List Char) : Option (Option Align) :=
  if col.count ':' = 2 then some (some .center)
  else
    match col with
    | [] => none
    | c :: rest =>
      if c = ':' then some (some .left)
      else if List.getLastD (c :: rest) c = ':' then some (some .right)
      else some none

/-- `MultiMarkdownAlignColumn.__init__`: `col = data.strip()`, then the
colon-counting branch structure above. -/
def mmdAlignInit (data : List Char) : Option (Option Align) :=
  mmdAlignCore (pyStrip data)

/-- `PandocAlignColumn._parse_alignment`: strip the separator text, then
decide alignment from `startswith(":")` / `endswith(":")`. -/
def pandocParseAlignment (sep : List Char) : Option Align :=
  let core := pyStrip sep
  if core.head? = some ':' ∧ core.getLast? = some ':' then some .center
  else if core.head? = some ':' then some .left
  else if core.getLast? = some ':' then some .right
  else none

/-- The part of a separator cell after the leading whitespace and the
optional leading colon: the input positioned at the `[-]+` (or `[=]+`)
run of the patterns `^\s*:?[-]+:?\s*$` (MultiMarkdown `PATTERN` is the
same language with a capture group). -/
def sepCore (cs : List Char) : List Char :=
  if (cs.dropWhile isPyWS).head? = some ':' then (cs.dropWhile isPyWS).tail
  else cs.dropWhile isPyWS

/-- Decides the regex `^\s*:?[b]+:?\s*$` for a border character `b`
(`'-'` for the single patterns, `'='` for the Pandoc double pattern).
The character classes `\s`, `:` and `b` are pairwise disjoint, so the
greedy left-to-right match is equivalent to the backtracking regex. -/
def matchSepCell (b : Char) (cs : List Char) : Bool :=
  let cs2 := sepCore cs
  let rest := cs2.dropWhile (· = b)
  let rest2 := if rest.head? = some ':' then rest.tail else rest
  (!(cs2.takeWhile (· = b)).isEmpty) && rest2.all isPyWS

/-- Row classification produced by `PandocTableParser.create_row`:
`alignRow sep` embeds `PandocAlignRow(table, sep)`, `sepRow sep` embeds
`tborder.SeparatorRow(table, sep)`, `dataRow` embeds the data row made by
`create_data_row`. -/
inductive PRow
  | alignRow (sep : Char)
  | sepRow (sep : Char)
  | dataRow
deriving DecidableEq, Repr

/-- `isinstance(row, PandocAlignRow)`. -/
def PRow.isAlign : PRow → Bool
  | .alignRow _ => true
  | _ => false

/-- `row.is_separator()` for Pandoc rows.  `PandocAlignRow.is_separator`
returns True in the source; `SeparatorRow` is the plain separator row
(modelled from the spec for the class living in `table_border_syntax`);
a data row is not a separator. -/
def PRow.isSep : PRow → Bool
  | .alignRow _ => true
  | .sepRow _ => true
  | .dataRow => false

/-- `PandocTableParser._is_single_row_separator_with_align`: false on an
empty cell list, else every cell must match `^\s*:?[-]+:?\s*$`. -/
def pandocIsSingleSep (strCols : List (List Char)) : Bool :=
  !strCols.isEmpty && strCols.all (matchSepCell '-')

/-- `PandocTableParser._is_double_row_separator_with_align`: same with
the `=`-based pattern. -/
def pandocIsDoubleSep (strCols : List (List Char)) : Bool :=
  !strCols.isEmpty && strCols.all (matchSepCell '=')

/-- `PandocTableParser._has_alignment_markers`: some cell contains a colon
(Python `":" in col`). -/
def pandocHasAlign (strCols : List (List Char)) : Bool :=
  strCols.any (fun c => decide (':' ∈ c))

/-- `PandocTableParser.create_row`. -/
def pandocCreateRow (strCols : List (List Char)) : PRow :=
  if pandocIsSingleSep strCols then
    if pandocHasAlign strCols then .alignRow '-' else .sepRow '-'
  else if pandocIsDoubleSep strCols then
    if pandocHasAlign strCols then .alignRow '=' else .sepRow '='
  else .dataRow

/-- Rows of a MultiMarkdown table as created by
`MultiMarkdownTableParser.create_row`: an alignment row
(`MultiMarkdownAlignRow`) or a data row (`tbase.DataRow`). -/
inductive MRow
  | alignRow
  | dataRow
deriving DecidableEq, Repr

/-- `row.is_separator()`: `MultiMarkdownAlignRow.is_separator` returns True
in the source; a data row is not a separator (modelled from the spec for
`tbase.DataRow`). -/
def MRow.isSep : MRow → Bool
  | .alignRow => true
  | .dataRow => false

/-- Cursor position `tbase.TablePos(row_num, field_num)`. -/
structure TablePos where
  row_num : Nat
  field_num : Nat
deriving DecidableEq, Repr

/-- Python `list.insert(i, x)`: insert `x` before index `i`, clamping `i`
to the end of the list. -/
def pyInsert (l : List α) (i : Nat) (a : α) : List α :=
  l.take i ++ a :: l.drop i

/-- Modelled from the spec: `table_base.TextTable.pack()` (not under
`src/`) recomputes column counts and widths across all rows; it adds,
removes or reorders no row, so on the row-list abstraction used here it
is the identity. -/
def pack (rows : List α) : List α := rows

/-- Modelled from the spec: `table_base` `insert_empty_row(i)` (not under
`src/`) inserts an empty `DataRow` at index `i` (clamped like Python
`list.insert`). -/
def mmdInsertEmptyRow (rows : List MRow) (i : Nat) : List MRow :=
  pyInsert rows i .dataRow

/-- `MultiMarkdownTableDriver.editor_insert_single_hline`. -/
def mmdInsertSingleHline (rows : List MRow) (pos : TablePos) :
    String × List MRow × TablePos :=
  ("Single separator row inserted",
   pack (pyInsert rows (pos.row_num + 1) .alignRow),
   ⟨pos.row_num, pos.field_num⟩)

/-- The post-insertion block of
`MultiMarkdownTableDriver.editor_insert_hline_and_move`: `rows1` is the
row list after the separator insertion, `i` is `table_pos.row_num + 2`.
If a row exists at index `i` and is a separator, insert an empty data row
there; if no row exists at index `i`, insert (append) an empty data row. -/
def mmdHlineMoveRows (rows1 : List MRow) (i : Nat) : List MRow :=
  if h : i < rows1.length then
    if (rows1.get ⟨i, h⟩).isSep then mmdInsertEmptyRow rows1 i else rows1
  else mmdInsertEmptyRow rows1 i

/-- `MultiMarkdownTableDriver.editor_insert_hline_and_move`. -/
def mmdInsertHlineAndMove (rows : List MRow) (pos : TablePos) :
    String × List MRow × TablePos :=
  ("Single separator row inserted",
   mmdHlineMoveRows (pack (pyInsert rows (pos.row_num + 1) .alignRow))
     (pos.row_num + 2),
   ⟨pos.row_num + 2, 0⟩)

/-- `PandocTableDriver.editor_insert_single_hline`: scan for an existing
`PandocAlignRow`; insert a `PandocAlignRow(table, "-")` if one is found,
else a plain `SeparatorRow(table, "-")`. -/
def pandocInsertSingleHline (rows : List PRow) (pos : TablePos) :
    String × List PRow × TablePos :=
  ("Single separator row inserted",
   pack (pyInsert rows (pos.row_num + 1)
     (if rows.any PRow.isAlign then .alignRow '-' else .sepRow '-')),
   ⟨pos.row_num, pos.field_num⟩)

/-- `PandocTableDriver.editor_insert_double_hline`: same scan, inserting
`PandocAlignRow(table, "=")` or `SeparatorRow(table, "=")`. -/
def pandocInsertDoubleHline (rows : List PRow) (pos : TablePos) :
    String × List PRow × TablePos :=
  ("Double separator row inserted",
   pack (pyInsert rows (pos.row_num + 1)
     (if rows.any PRow.isAlign then .alignRow '=' else .sepRow '=')),
   ⟨pos.row_num, pos.field_num⟩)

/-- The tokenizer output `LineCell`: cell text and flanking border text. -/
structure LineCell where
  text : List Char
  left_border_text : List Char
  right_border_text : List Char

/-- Modelled from the spec: `tbase.BaseTableParser.create_column` (not
under `src/`) creates a column with the default `colspan` of 1. -/
def baseColspan : Nat := 1

/-- `MultiMarkdownTableParser.create_column`: the colspan the created
column ends up with — overridden to `len(line_cell.right_border_text)`
when that length exceeds 1. -/
def mmdCreateColumnColspan (cell : LineCell) : Nat :=
  if cell.right_border_text.length > 1 then cell.right_border_text.length
  else baseColspan

/-- `MultiMarkdownAlignColumn.total_min_len`: `5 + colspan - 1`. -/
def mmdTotalMinLen (colspan : Nat) : Nat := 5 + colspan - 1

/-- `MultiMarkdownAlignColumn.min_len`:
`int(math.ceil(total_min_len() / colspan))` with true division. -/
def mmdMinLen (colspan : Nat) : Nat :=
  Nat.ceil ((mmdTotalMinLen colspan : ℚ) / colspan)

/-- `PandocAlignColumn.min_len`: always 3. -/
def pandocMinLen : Nat := 3

/-- The base border character chosen in `PandocAlignColumn.render`:
`"=" if "=" in self.separator else "-"`. -/
def pandocBaseChar (separator : List Char) : Char :=
  if '=' ∈ separator then '=' else '-'

/-- `PandocAlignColumn.render` for a column whose stored separator text is
`separator` and whose assigned width is `col_len` (`self._align_follow`
is what `_parse_alignment` computed from `separator` at construction). -/
def pandocRender (separator : List Char) (col_len : Nat) : List Char :=
  match pandocParseAlignment separator with
  | some .center =>
      if col_len ≤ 2 then List.replicate col_len (pandocBaseChar separator)
      else ':' :: List.replicate (col_len - 2) (pandocBaseChar separator) ++ [':']
  | some .left =>
      if col_len ≤ 1 then List.replicate col_len (pandocBaseChar separator)
      else ':' :: List.replicate (col_len - 1) (pandocBaseChar separator)
  | some .right =>
      if col_len ≤ 1 then List.replicate col_len (pandocBaseChar separator)
      else List.replicate (col_len - 1) (pandocBaseChar separator) ++ [':']
  | none => List.replicate col_len (pandocBaseChar separator)

-- Sanity checks of the embedding on concrete inputs.
example : pyStrip [' ', ':', '-', ':', ' '] = [':', '-', ':'] := by decide
example : mmdAlignInit [':', '-', '-', '-', ':'] = some (some .center) := by decide
example : mmdAlignInit [':', ':'] = some (some .center) := by decide
example : mmdAlignInit [':', '-', ':', '-', ':'] = some (some .left) := by decide
example : mmdAlignInit [] = none := by decide
example : pandocParseAlignment [':', '-', '-', '-', ':'] = some .center := by decide
example : pandocParseAlignment ['=', '=', ':'] = some .right := by decide
example : matchSepCell '-' [' ', ':', '-', '-', ':', ' '] = true := by decide
example : matchSepCell '-' [':', ':'] = false := by decide
example : matchSepCell '=' [':', '=', '='] = true := by decide
example : matchSepCell '-' [':', '=', '='] = false := by decide
example : pandocCreateRow [['-', '-', '-'], ['-', '-']] = .sepRow '-' := by decide
example : pandocCreateRow [['-', '-', '-'], [':', '-']] = .alignRow '-' := by decide
example : pandocCreateRow [['=', '='], ['=', ':']] = .alignRow '=' := by decide
example : pandocCreateRow [['-', '-'], ['x']] = .dataRow := by decide
example : mmdMinLen 2 = 3 := by norm_num [mmdMinLen, mmdTotalMinLen]
example : mmdMinLen 1 = 5 := by norm_num [mmdMinLen, mmdTotalMinLen]
example : pandocRender [':', '-', ':'] 5 = [':', '-', '-', '-', ':'] := by decide
example : pandocRender [':', '-', ':'] 2 = ['-', '-'] := by decide
example : pandocRender ['=', '=', ':'] 4 = ['=', '=', '=', ':'] := by decide

/-! ### Helper lemmas -/

lemma mem_dropWhile_of_mem {α : Type} {p : α → Bool} {a : α} {l : List α}
    (ha : a ∈ l) (hpa : p a = false) : a ∈ l.dropWhile p := by
  induction l with
  | nil => cases ha
  | cons x xs ih =>
    rw [List.dropWhile_cons]
    by_cases hx : p x = true
    · rcases List.mem_cons.mp ha with h | h
      · subst h; rw [hpa] at hx; cases hx
      · simp only [hx, if_true]; exact ih h
    · rw [Bool.not_eq_true] at hx
      simp only [hx, Bool.false_eq_true, if_false]
      exact ha

lemma mem_pyStrip {a : Char} {l : List Char} (ha : a ∈ l)
    (hws : isPyWS a = false) : a ∈ pyStrip l := by
  unfold pyStrip
  rw [List.mem_reverse]
  refine mem_dropWhile_of_mem ?_ hws
  rw [List.mem_reverse]
  exact mem_dropWhile_of_mem ha hws

lemma sepCore_sublist (cs : List Char) : List.Sublist (sepCore cs) cs := by
  unfold sepCore
  split
  · exact (List.tail_sublist _).trans (List.dropWhile_sublist _)
  · exact List.dropWhile_sublist _

lemma matchSepCell_head {b : Char} {cs : List Char}
    (h : matchSepCell b cs = true) : (sepCore cs).head? = some b := by
  unfold matchSepCell at h
  rw [Bool.and_eq_true] at h
  obtain ⟨h1, -⟩ := h
  rw [Bool.not_eq_eq_eq_not, Bool.not_true] at h1
  cases hcs : sepCore cs with
  | nil => rw [hcs] at h1; simp at h1
  | cons a l =>
    rw [hcs, List.takeWhile_cons] at h1
    by_cases hab : a = b
    · simp [hab]
    · simp [hab] at h1

lemma matchSepCell_mem {b : Char} {cs : List Char}
    (h : matchSepCell b cs = true) : b ∈ cs := by
  have h1 := matchSepCell_head h
  have hmem : b ∈ sepCore cs := by
    cases hcs : sepCore cs with
    | nil => rw [hcs] at h1; cases h1
    | cons a l =>
      rw [hcs] at h1
      simp only [List.head?_cons, Option.some.injEq] at h1
      rw [h1] at *
      exact List.mem_cons_self b l
  exact (sepCore_sublist cs).mem hmem

lemma matchSepCell_disjoint {b c : Char} {cs : List Char} (hbc : b ≠ c)
    (h : matchSepCell b cs = true) : matchSepCell c cs = false := by
  by_contra hc
  rw [Bool.not_eq_false] at hc
  have h1 := matchSepCell_head h
  have h2 := matchSepCell_head hc
  rw [h1] at h2
  exact hbc (Option.some.inj h2)

lemma pyInsert_length {α : Type} {l : List α} {i : Nat} (h : i ≤ l.length)
    (a : α) : (pyInsert l i a).length = l.length + 1 := by
  unfold pyInsert
  rw [List.length_append, List.length_cons, List.length_take,
    List.length_drop]
  omega

lemma pyInsert_getElem_self {α : Type} {l : List α} {i : Nat}
    (h : i ≤ l.length) (a : α) : (pyInsert l i a)[i]? = some a := by
  have hlen : (l.take i).length = i := by rw [List.length_take]; omega
  unfold pyInsert
  rw [List.getElem?_append_right hlen.le, hlen, Nat.sub_self]
  simp

lemma pyInsert_getElem_lt {α : Type} {l : List α} {i j : Nat} (hj : j < i)
    (hjl : j < l.length) (a : α) : (pyInsert l i a)[j]? = l[j]? := by
  unfold pyInsert
  rw [List.getElem?_append_left (by rw [List.length_take]; omega),
    List.getElem?_take]
  simp [hj]

lemma pyInsert_of_length_le {α : Type} {l : List α} {i : Nat}
    (h : l.length ≤ i) (a : α) : pyInsert l i a = l ++ [a] := by
  unfold pyInsert
  rw [List.take_of_length_le h, List.drop_of_length_le h]

lemma mem_pyInsert {α : Type} {l : List α} {x : α} (hx : x ∈ l) (i : Nat)
    (a : α) : x ∈ pyInsert l i a := by
  have hsplit : x ∈ l.take i ++ l.drop i := by
    rw [List.take_append_drop]; exact hx
  unfold pyInsert
  rcases List.mem_append.mp hsplit with h | h
  · exact List.mem_append.mpr (Or.inl h)
  · exact List.mem_append.mpr (Or.inr (List.mem_cons_of_mem a h))

lemma mmdAlignCore_center_iff (col : List Char) :
    mmdAlignCore col = some (some .center) ↔ col.count ':' = 2 := by
  unfold mmdAlignCore
  by_cases h : col.count ':' = 2
  · simp [h]
  · rw [if_neg h]
    constructor
    · intro hc
      exfalso
      split at hc
      · cases hc
      · split at hc
        · simp at hc
        · split at hc
          · simp at hc
          · simp at hc
    · intro hc
      exact absurd hc h

/-! ### Claim theorems -/

/-- C1: for a single separator cell, alignment inference yields
`:---:` → Center, `:---` → Left, `---:` → Right, `---` → None in both
dialects, and for Pandoc the same with `=` in place of `-`; in
Multi-Markdown, Center is exactly the stripped cell counting two colons in
total, so the degenerate cell `::` is Center. -/
theorem mmd_pandoc_alignment_inference :
    mmdAlignInit [':', '-', '-', '-', ':'] = some (some .center) ∧
    mmdAlignInit [':', '-', '-', '-'] = some (some .left) ∧
    mmdAlignInit ['-', '-', '-', ':'] = some (some .right) ∧
    mmdAlignInit ['-', '-', '-'] = some none ∧
    pandocParseAlignment [':', '-', '-', '-', ':'] = some .center ∧
    pandocParseAlignment [':', '-', '-', '-'] = some .left ∧
    pandocParseAlignment ['-', '-', '-', ':'] = some .right ∧
    pandocParseAlignment ['-', '-', '-'] = none ∧
    pandocParseAlignment [':', '=', '=', '=', ':'] = some .center ∧
    pandocParseAlignment [':', '=', '=', '='] = some .left ∧
    pandocParseAlignment ['=', '=', '=', ':'] = some .right ∧
    pandocParseAlignment ['=', '=', '='] = none ∧
    mmdAlignInit [':', ':'] = some (some .center) ∧
    (∀ data : List Char,
      mmdAlignInit data = some (some .center) ↔
        (pyStrip data).count ':' = 2) := by
  refine ⟨by decide, by decide, by decide, by decide, by decide, by decide,
    by decide, by decide, by decide, by decide, by decide, by decide,
    by decide, fun data => ?_⟩
  exact mmdAlignCore_center_iff (pyStrip data)

/-- C3 counterexample: the separator cell `:-:-:` contains three colons,
so `count(':') == 2` is false and the cell is not classified Center. -/
theorem mmd_colon_counting_not_center :
    mmdAlignInit [':', '-', ':', '-', ':'] ≠ some (some .center) := by decide

/-- C3 amended: under the Multi-Markdown colon-counting detection rule,
the odd separator cell `:-:-:` (three colons in total) is classified as
Left alignment via the leading colon; an odd cell with exactly two colons
that are not at both ends, such as `:-:-`, is the one classified as
Center. -/
theorem mmd_colon_counting_amended :
    mmdAlignInit [':', '-', ':', '-', ':'] = some (some .left) ∧
    (pyStrip [':', '-', ':', '-', ':']).count ':' = 3 ∧
    mmdAlignInit [':', '-', ':', '-'] = some (some .center) := by decide

lemma pandocRowSep_true {b : Char} {strCols : List (List Char)}
    (hne : strCols ≠ []) (hall : ∀ c ∈ strCols, matchSepCell b c = true) :
    (!strCols.isEmpty && strCols.all (matchSepCell b)) = true := by
  rw [Bool.and_eq_true, List.all_eq_true]
  refine ⟨?_, hall⟩
  cases strCols with
  | nil => exact absurd rfl hne
  | cons a l => rfl

lemma pandocRowSep_false {b : Char} {strCols : List (List Char)}
    {c0 : List Char} (hc0 : c0 ∈ strCols) (h : matchSepCell b c0 = false) :
    (!strCols.isEmpty && strCols.all (matchSepCell b)) = false := by
  by_contra hcon
  rw [Bool.not_eq_false, Bool.and_eq_true, List.all_eq_true] at hcon
  exact absurd (hcon.2 c0 hc0) (by simp [h])

lemma pandocHasAlign_iff (strCols : List (List Char)) :
    pandocHasAlign strCols = true ↔ ∃ c ∈ strCols, ':' ∈ c := by
  simp [pandocHasAlign, List.any_eq_true]

/-- C2: a Pandoc row all of whose cells match the single-border separator
pattern parses as an alignment-bearing `PandocAlignRow` iff some cell
contains a colon, and otherwise as a plain `SeparatorRow` with `-`;
analogously for the `=`-based pattern; an all-`---` row with no colon is a
plain `SeparatorRow`, and a row with a cell matching neither pattern is a
data row. -/
theorem pandoc_create_row_classification :
    (∀ strCols : List (List Char), strCols ≠ [] →
      ((∀ c ∈ strCols, matchSepCell '-' c = true) →
        (pandocCreateRow strCols = PRow.alignRow '-' ↔ ∃ c ∈ strCols, ':' ∈ c) ∧
        ((¬ ∃ c ∈ strCols, ':' ∈ c) → pandocCreateRow strCols = PRow.sepRow '-')) ∧
      ((∀ c ∈ strCols, matchSepCell '=' c = true) →
        (pandocCreateRow strCols = PRow.alignRow '=' ↔ ∃ c ∈ strCols, ':' ∈ c) ∧
        ((¬ ∃ c ∈ strCols, ':' ∈ c) → pandocCreateRow strCols = PRow.sepRow '=')) ∧
      ((∃ c ∈ strCols, matchSepCell '-' c = false ∧ matchSepCell '=' c = false) →
        pandocCreateRow strCols = PRow.dataRow)) ∧
    pandocCreateRow [['-', '-', '-'], ['-', '-', '-']] = PRow.sepRow '-' := by
  refine ⟨fun strCols hne => ⟨?_, ?_, ?_⟩, by decide⟩
  · intro hall
    have hsingle : pandocIsSingleSep strCols = true := by
      unfold pandocIsSingleSep; exact pandocRowSep_true hne hall
    constructor
    · by_cases hA : pandocHasAlign strCols = true
      · simp only [pandocCreateRow, hsingle, hA, if_true]
        exact iff_of_true trivial ((pandocHasAlign_iff strCols).mp hA)
      · rw [Bool.not_eq_true] at hA
        simp only [pandocCreateRow, hsingle, hA, if_true,
          Bool.false_eq_true, if_false]
        refine iff_of_false (by simp) fun hex => ?_
        rw [(pandocHasAlign_iff strCols).mpr hex] at hA
        cases hA
    · intro hnex
      have hA : pandocHasAlign strCols = false := by
        rw [← Bool.not_eq_true]
        exact fun h => hnex ((pandocHasAlign_iff strCols).mp h)
      simp [pandocCreateRow, hsingle, hA]
  · intro hall
    obtain ⟨c0, hc0⟩ : ∃ c, c ∈ strCols := by
      cases strCols with
      | nil => exact absurd rfl hne
      | cons a l => exact ⟨a, List.mem_cons_self a l⟩
    have hnd : matchSepCell '-' c0 = false :=
      matchSepCell_disjoint (by decide) (hall c0 hc0)
    have hsingle : pandocIsSingleSep strCols = false := by
      unfold pandocIsSingleSep; exact pandocRowSep_false hc0 hnd
    have hdouble : pandocIsDoubleSep strCols = true := by
      unfold pandocIsDoubleSep; exact pandocRowSep_true hne hall
    constructor
    · by_cases hA : pandocHasAlign strCols = true
      · simp only [pandocCreateRow, hsingle, hdouble, hA, if_true,
          Bool.false_eq_true, if_false]
        exact iff_of_true trivial ((pandocHasAlign_iff strCols).mp hA)
      · rw [Bool.not_eq_true] at hA
        simp only [pandocCreateRow, hsingle, hdouble, hA, if_true,
          Bool.false_eq_true, if_false]
        refine iff_of_false (by simp) fun hex => ?_
        rw [(pandocHasAlign_iff strCols).mpr hex] at hA
        cases hA
    · intro hnex
      have hA : pandocHasAlign strCols = false := by
        rw [← Bool.not_eq_true]
        exact fun h => hnex ((pandocHasAlign_iff strCols).mp h)
      simp [pandocCreateRow, hsingle, hdouble, hA]
  · rintro ⟨c0, hc0, hd, he⟩
    have hsingle : pandocIsSingleSep strCols = false := by
      unfold pandocIsSingleSep; exact pandocRowSep_false hc0 hd
    have hdouble : pandocIsDoubleSep strCols = false := by
      unfold pandocIsDoubleSep; exact pandocRowSep_false hc0 he
    simp [pandocCreateRow, hsingle, hdouble]

/-- C2 witness. -/
theorem pandoc_create_row_classification_witness :
    pandocCreateRow [['-', '-'], [':', '-']] = PRow.alignRow '-' ∧
    pandocCreateRow [['=', '='], ['=', '=']] = PRow.sepRow '=' ∧
    pandocCreateRow [['-', '-'], ['x']] = PRow.dataRow := by
  have h := pandoc_create_row_classification
  refine ⟨?_, ?_, ?_⟩
  · exact ((h.1 [['-', '-'], [':', '-']] (by decide)).1 (by decide)).1.mpr
      ⟨[':', '-'], by decide, by decide⟩
  · exact ((h.1 [['=', '='], ['=', '=']] (by decide)).2.1 (by decide)).2
      (by decide)
  · exact (h.1 [['-', '-'], ['x']] (by decide)).2.2
      ⟨['x'], by decide, by decide, by decide⟩

/-- C4: a line cell whose `right_border_text` has length `k ≥ 2` yields
colspan `k` from `create_column`, and a `MultiMarkdownAlignColumn` with
colspan `c` has `total_min_len() = 5 + (c - 1)` and
`min_len() = ceil((5 + c - 1) / c)`; in the colspan-2 case
`min_len() = 3`. -/
theorem mmd_colspan_min_len :
    (∀ cell : LineCell, 2 ≤ cell.right_border_text.length →
      mmdCreateColumnColspan cell = cell.right_border_text.length) ∧
    (∀ c : Nat, 1 ≤ c →
      mmdTotalMinLen c = 5 + (c - 1) ∧
      mmdMinLen c = Nat.ceil ((5 + (c : ℚ) - 1) / c)) ∧
    mmdMinLen 2 = 3 := by
  refine ⟨fun cell h => ?_, fun c hc => ⟨?_, ?_⟩,
    by norm_num [mmdMinLen, mmdTotalMinLen]⟩
  · unfold mmdCreateColumnColspan
    rw [if_pos (by omega)]
  · unfold mmdTotalMinLen; omega
  · unfold mmdMinLen
    congr 2
    rw [mmdTotalMinLen]
    push_cast [Nat.cast_sub (show 1 ≤ 5 + c by omega)]
    ring

/-- C4 witness. -/
theorem mmd_colspan_min_len_witness :
    2 ≤ (['|', '|'] : List Char).length ∧ (1 : Nat) ≤ 2 ∧
    mmdCreateColumnColspan ⟨['x'], ['|'], ['|', '|']⟩ = 2 ∧
    mmdTotalMinLen 2 = 5 + (2 - 1) ∧
    mmdMinLen 2 = 3 := by
  obtain ⟨h1, h2, h3⟩ := mmd_colspan_min_len
  exact ⟨by decide, by decide,
    (h1 ⟨['x'], ['|'], ['|', '|']⟩ (by decide)).trans (by decide),
    (h2 2 (by decide)).1, h3⟩

/-- C5: in both dialects `editor_insert_single_hline` at an in-bounds
position inserts exactly one separator row at index `pos.row_num + 1`,
keeps the pre-existing rows in order around it, and returns the status
string with `TablePos(pos.row_num, pos.field_num)`. -/
theorem insert_single_hline_spec :
    ∀ (mrows : List MRow) (prows : List PRow) (pos : TablePos),
      pos.row_num < mrows.length → pos.row_num < prows.length →
      (mmdInsertSingleHline mrows pos =
        ("Single separator row inserted",
         mrows.take (pos.row_num + 1) ++
           MRow.alignRow :: mrows.drop (pos.row_num + 1),
         ⟨pos.row_num, pos.field_num⟩) ∧
       (mmdInsertSingleHline mrows pos).2.1.length = mrows.length + 1 ∧
       ((mmdInsertSingleHline mrows pos).2.1)[pos.row_num + 1]? =
         some MRow.alignRow ∧
       MRow.isSep MRow.alignRow = true) ∧
      (∃ r : PRow, PRow.isSep r = true ∧
        pandocInsertSingleHline prows pos =
          ("Single separator row inserted",
           prows.take (pos.row_num + 1) ++ r :: prows.drop (pos.row_num + 1),
           ⟨pos.row_num, pos.field_num⟩) ∧
        (pandocInsertSingleHline prows pos).2.1.length = prows.length + 1 ∧
        ((pandocInsertSingleHline prows pos).2.1)[pos.row_num + 1]? =
          some r) := by
  intro mrows prows pos hm hp
  constructor
  · refine ⟨rfl, ?_, ?_, rfl⟩
    · show (pack (pyInsert mrows (pos.row_num + 1) MRow.alignRow)).length =
        mrows.length + 1
      exact pyInsert_length (by omega) _
    · show (pack (pyInsert mrows (pos.row_num + 1)
        MRow.alignRow))[pos.row_num + 1]? = some MRow.alignRow
      exact pyInsert_getElem_self (by omega) _
  · refine ⟨if prows.any PRow.isAlign then PRow.alignRow '-'
      else PRow.sepRow '-', ?_, rfl, ?_, ?_⟩
    · by_cases h : prows.any PRow.isAlign = true <;> simp [h, PRow.isSep]
    · show (pack (pyInsert prows (pos.row_num + 1) _)).length =
        prows.length + 1
      exact pyInsert_length (by omega) _
    · show (pack (pyInsert prows (pos.row_num + 1) _))[pos.row_num + 1]? =
        some _
      exact pyInsert_getElem_self (by omega) _

/-- C5 witness. -/
theorem insert_single_hline_spec_witness :
    (1 : Nat) < 3 ∧ (1 : Nat) < 2 ∧
    (mmdInsertSingleHline [MRow.dataRow, MRow.alignRow, MRow.dataRow]
      ⟨1, 0⟩).2.1.length = 3 + 1 ∧
    (pandocInsertSingleHline [PRow.dataRow, PRow.dataRow] ⟨1, 0⟩).2.2 =
      ⟨1, 0⟩ := by
  have h := insert_single_hline_spec
    [MRow.dataRow, MRow.alignRow, MRow.dataRow]
    [PRow.dataRow, PRow.dataRow] ⟨1, 0⟩ (by decide) (by decide)
  refine ⟨by decide, by decide, h.1.2.1, ?_⟩
  obtain ⟨r, -, heq, -, -⟩ := h.2
  rw [heq]

/-- C6: `editor_insert_hline_and_move` inserts a separator at
`pos.row_num + 1` and returns cursor `(pos.row_num + 2, 0)`; when no row
exists at index `pos.row_num + 2` after the insertion an empty data row
is appended there, when the row at that index is itself a separator an
empty data row is inserted between the two separators, and at the last
row both a separator and an empty data row are appended. -/
theorem insert_hline_and_move_spec :
    ∀ (rows : List MRow) (pos : TablePos), pos.row_num < rows.length →
      (mmdInsertHlineAndMove rows pos).2.2 = ⟨pos.row_num + 2, 0⟩ ∧
      ((mmdInsertHlineAndMove rows pos).2.1)[pos.row_num + 1]? =
        some MRow.alignRow ∧
      ((pyInsert rows (pos.row_num + 1) MRow.alignRow).length ≤
          pos.row_num + 2 →
        (mmdInsertHlineAndMove rows pos).2.1 =
          pyInsert rows (pos.row_num + 1) MRow.alignRow ++ [MRow.dataRow]) ∧
      (∀ h2 : pos.row_num + 2 <
          (pyInsert rows (pos.row_num + 1) MRow.alignRow).length,
        ((pyInsert rows (pos.row_num + 1) MRow.alignRow).get
            ⟨pos.row_num + 2, h2⟩).isSep = true →
        (mmdInsertHlineAndMove rows pos).2.1 =
          pyInsert (pyInsert rows (pos.row_num + 1) MRow.alignRow)
            (pos.row_num + 2) MRow.dataRow ∧
        ((mmdInsertHlineAndMove rows pos).2.1)[pos.row_num + 2]? =
          some MRow.dataRow) ∧
      (pos.row_num + 1 = rows.length →
        (mmdInsertHlineAndMove rows pos).2.1 =
          rows ++ [MRow.alignRow, MRow.dataRow]) := by
  intro rows pos h
  have hlen1 : (pyInsert rows (pos.row_num + 1) MRow.alignRow).length =
      rows.length + 1 := pyInsert_length (by omega) _
  have hget1 : (pyInsert rows (pos.row_num + 1)
      MRow.alignRow)[pos.row_num + 1]? = some MRow.alignRow :=
    pyInsert_getElem_self (by omega) _
  refine ⟨rfl, ?_, ?_, ?_, ?_⟩
  · show (mmdHlineMoveRows (pyInsert rows (pos.row_num + 1) MRow.alignRow)
      (pos.row_num + 2))[pos.row_num + 1]? = some MRow.alignRow
    unfold mmdHlineMoveRows
    split
    · split
      · unfold mmdInsertEmptyRow
        rw [pyInsert_getElem_lt (by omega) (by omega)]
        exact hget1
      · exact hget1
    · unfold mmdInsertEmptyRow
      rw [pyInsert_getElem_lt (by omega) (by omega)]
      exact hget1
  · intro hno
    show mmdHlineMoveRows (pyInsert rows (pos.row_num + 1) MRow.alignRow)
      (pos.row_num + 2) = _
    unfold mmdHlineMoveRows
    rw [dif_neg (by omega)]
    unfold mmdInsertEmptyRow
    exact pyInsert_of_length_le hno _
  · intro h2 hsep
    constructor
    · show mmdHlineMoveRows (pyInsert rows (pos.row_num + 1) MRow.alignRow)
        (pos.row_num + 2) = _
      unfold mmdHlineMoveRows
      rw [dif_pos h2, if_pos hsep]
      rfl
    · show (mmdHlineMoveRows (pyInsert rows (pos.row_num + 1) MRow.alignRow)
        (pos.row_num + 2))[pos.row_num + 2]? = some MRow.dataRow
      unfold mmdHlineMoveRows
      rw [dif_pos h2, if_pos hsep]
      unfold mmdInsertEmptyRow
      exact pyInsert_getElem_self (by omega) _
  · intro hl
    have hflat : pyInsert rows (pos.row_num + 1) MRow.alignRow =
        rows ++ [MRow.alignRow] := pyInsert_of_length_le (by omega) _
    show mmdHlineMoveRows (pyInsert rows (pos.row_num + 1) MRow.alignRow)
      (pos.row_num + 2) = _
    unfold mmdHlineMoveRows
    rw [dif_neg (by omega)]
    unfold mmdInsertEmptyRow
    rw [pyInsert_of_length_le (by omega) _, hflat, List.append_assoc]
    rfl

/-- C6 witness: invoked at the last row of a 2-row table. -/
theorem insert_hline_and_move_spec_witness :
    (1 : Nat) < 2 ∧
    (mmdInsertHlineAndMove [MRow.dataRow, MRow.dataRow] ⟨1, 0⟩).2.2 =
      ⟨3, 0⟩ ∧
    (mmdInsertHlineAndMove [MRow.dataRow, MRow.dataRow] ⟨1, 0⟩).2.1 =
      [MRow.dataRow, MRow.dataRow] ++ [MRow.alignRow, MRow.dataRow] := by
  have h := insert_hline_and_move_spec [MRow.dataRow, MRow.dataRow]
    ⟨1, 0⟩ (by decide)
  exact ⟨by decide, h.1, h.2.2.2.2 (by decide)⟩

/-- C7: both Pandoc hline insertions scan the existing rows: when some
row is a `PandocAlignRow` the inserted separator is an alignment-capable
`PandocAlignRow` (`-` for single, `=` for double), otherwise a plain
`SeparatorRow`; a table containing an alignment-bearing row still
contains one after either operation. -/
theorem pandoc_hline_alignment_preserved :
    ∀ (rows : List PRow) (pos : TablePos),
      (pandocInsertSingleHline rows pos).2.1 =
        pyInsert rows (pos.row_num + 1)
          (if rows.any PRow.isAlign then PRow.alignRow '-'
           else PRow.sepRow '-') ∧
      (pandocInsertDoubleHline rows pos).2.1 =
        pyInsert rows (pos.row_num + 1)
          (if rows.any PRow.isAlign then PRow.alignRow '='
           else PRow.sepRow '=') ∧
      (rows.any PRow.isAlign = true →
        (pandocInsertSingleHline rows pos).2.1 =
          pyInsert rows (pos.row_num + 1) (PRow.alignRow '-') ∧
        (pandocInsertDoubleHline rows pos).2.1 =
          pyInsert rows (pos.row_num + 1) (PRow.alignRow '=') ∧
        (pandocInsertSingleHline rows pos).2.1.any PRow.isAlign = true ∧
        (pandocInsertDoubleHline rows pos).2.1.any PRow.isAlign = true) ∧
      (rows.any PRow.isAlign = false →
        (pandocInsertSingleHline rows pos).2.1 =
          pyInsert rows (pos.row_num + 1) (PRow.sepRow '-') ∧
        (pandocInsertDoubleHline rows pos).2.1 =
          pyInsert rows (pos.row_num + 1) (PRow.sepRow '=')) := by
  intro rows pos
  refine ⟨rfl, rfl, fun hA => ?_, fun hA => ?_⟩
  · obtain ⟨x, hx, hxa⟩ := List.any_eq_true.mp hA
    refine ⟨by simp [pandocInsertSingleHline, pack, hA],
      by simp [pandocInsertDoubleHline, pack, hA], ?_, ?_⟩
    · show (pack (pyInsert rows (pos.row_num + 1) _)).any PRow.isAlign = true
      exact List.any_eq_true.mpr ⟨x, mem_pyInsert hx _ _, hxa⟩
    · show (pack (pyInsert rows (pos.row_num + 1) _)).any PRow.isAlign = true
      exact List.any_eq_true.mpr ⟨x, mem_pyInsert hx _ _, hxa⟩
  · exact ⟨by simp [pandocInsertSingleHline, pack, hA],
      by simp [pandocInsertDoubleHline, pack, hA]⟩

/-- C7 witness. -/
theorem pandoc_hline_alignment_preserved_witness :
    ([PRow.alignRow '-', PRow.dataRow].any PRow.isAlign = true) ∧
    (pandocInsertSingleHline [PRow.alignRow '-', PRow.dataRow]
      ⟨0, 0⟩).2.1.any PRow.isAlign = true ∧
    (pandocInsertDoubleHline [PRow.alignRow '-', PRow.dataRow]
      ⟨0, 0⟩).2.1.any PRow.isAlign = true := by
  have h := pandoc_hline_alignment_preserved [PRow.alignRow '-', PRow.dataRow]
    ⟨0, 0⟩
  exact ⟨by decide, (h.2.2.1 (by decide)).2.2.1, (h.2.2.1 (by decide)).2.2.2⟩

lemma pandocBaseChar_ne_colon (separator : List Char) :
    pandocBaseChar separator ≠ ':' := by
  unfold pandocBaseChar
  split <;> decide

lemma pandocRender_length (separator : List Char) (w : Nat) :
    (pandocRender separator w).length = w := by
  unfold pandocRender
  rcases h : pandocParseAlignment separator with _ | a
  · simp
  · cases a
    · by_cases hw : w ≤ 1
      · simp [hw]
      · simp [hw]; omega
    · by_cases hw : w ≤ 1
      · simp [hw]
      · simp [hw]; omega
    · by_cases hw : w ≤ 2
      · simp [hw]
      · simp [hw]; omega

/-- C8: at any width `w` no smaller than the column minimum
(`min_len() = 3`), `render()` emits lead + fill + trail with no outer
padding: fill is the base border character repeated `w - 2` times for
Center, `w - 1` times for Left or Right, `w` times for no alignment, and
the rendered length is exactly `w`. -/
theorem pandoc_align_render_shape :
    ∀ (separator : List Char) (w : Nat), pandocMinLen ≤ w →
      (pandocRender separator w).length = w ∧
      (pandocParseAlignment separator = some .center →
        pandocRender separator w =
          ':' :: List.replicate (w - 2) (pandocBaseChar separator) ++
            [':']) ∧
      (pandocParseAlignment separator = some .left →
        pandocRender separator w =
          ':' :: List.replicate (w - 1) (pandocBaseChar separator)) ∧
      (pandocParseAlignment separator = some .right →
        pandocRender separator w =
          List.replicate (w - 1) (pandocBaseChar separator) ++ [':']) ∧
      (pandocParseAlignment separator = none →
        pandocRender separator w =
          List.replicate w (pandocBaseChar separator)) := by
  intro separator w hw
  rw [pandocMinLen] at hw
  refine ⟨pandocRender_length separator w, fun hc => ?_, fun hc => ?_,
    fun hc => ?_, fun hc => ?_⟩
  · simp only [pandocRender, hc]
    rw [if_neg (by omega)]
  · simp only [pandocRender, hc]
    rw [if_neg (by omega)]
  · simp only [pandocRender, hc]
    rw [if_neg (by omega)]
  · simp only [pandocRender, hc]

/-- C8 witness. -/
theorem pandoc_align_render_shape_witness :
    pandocMinLen ≤ 4 ∧
    (pandocRender [':', '=', ':'] 4).length = 4 ∧
    pandocRender [':', '=', ':'] 4 =
      ':' :: List.replicate 2 (pandocBaseChar [':', '=', ':']) ++ [':'] := by
  have h := pandoc_align_render_shape [':', '=', ':'] 4 (by decide)
  exact ⟨by decide, h.1, h.2.1 (by decide)⟩

/-- C9: `render()` always returns exactly `col_len` characters with only
natural (never negative) repetitions, and at small widths the alignment
markers are silently dropped: Center with `col_len ≤ 2`, or Left/Right
with `col_len ≤ 1`, renders the base border character `col_len` times
with no colon at all. -/
theorem pandoc_align_render_safety :
    ∀ (separator : List Char) (w : Nat),
      (pandocRender separator w).length = w ∧
      (pandocParseAlignment separator = some .center → w ≤ 2 →
        pandocRender separator w =
          List.replicate w (pandocBaseChar separator) ∧
        ':' ∉ pandocRender separator w) ∧
      (pandocParseAlignment separator = some .left → w ≤ 1 →
        pandocRender separator w =
          List.replicate w (pandocBaseChar separator) ∧
        ':' ∉ pandocRender separator w) ∧
      (pandocParseAlignment separator = some .right → w ≤ 1 →
        pandocRender separator w =
          List.replicate w (pandocBaseChar separator) ∧
        ':' ∉ pandocRender separator w) := by
  intro separator w
  have hrep : ':' ∉ List.replicate w (pandocBaseChar separator) := by
    intro hmem
    exact pandocBaseChar_ne_colon separator
      ((List.eq_of_mem_replicate hmem).symm)
  refine ⟨pandocRender_length separator w, fun hc hw => ?_, fun hc hw => ?_,
    fun hc hw => ?_⟩
  · have heq : pandocRender separator w =
        List.replicate w (pandocBaseChar separator) := by
      simp only [pandocRender, hc]
      rw [if_pos hw]
    exact ⟨heq, heq ▸ hrep⟩
  · have heq : pandocRender separator w =
        List.replicate w (pandocBaseChar separator) := by
      simp only [pandocRender, hc]
      rw [if_pos hw]
    exact ⟨heq, heq ▸ hrep⟩
  · have heq : pandocRender separator w =
        List.replicate w (pandocBaseChar separator) := by
      simp only [pandocRender, hc]
      rw [if_pos hw]
    exact ⟨heq, heq ▸ hrep⟩

/-- C9 witness. -/
theorem pandoc_align_render_safety_witness :
    (pandocRender [':', '-', ':'] 2).length = 2 ∧
    pandocRender [':', '-', ':'] 2 =
      List.replicate 2 (pandocBaseChar [':', '-', ':']) ∧
    ':' ∉ pandocRender [':', '-', ':'] 2 := by
  have h := pandoc_align_render_safety [':', '-', ':'] 2
  exact ⟨h.1, (h.2.1 (by decide) (by decide)).1,
    (h.2.1 (by decide) (by decide)).2⟩

/-- C10: the `MultiMarkdownAlignColumn` constructor indexes the stripped
cell at its first and last positions, so it fails exactly on cells whose
`strip()` is empty; under the separator-pattern precondition (which
requires at least one `-`), and for the literal `-` used by
`new_empty_column`, it always succeeds. -/
theorem mmd_align_column_partiality :
    (∀ data : List Char, pyStrip data = [] → mmdAlignInit data = none) ∧
    (∀ data : List Char, matchSepCell '-' data = true →
      (mmdAlignInit data).isSome = true) ∧
    mmdAlignInit ['-'] = some none := by
  refine ⟨fun data hd => ?_, fun data hm => ?_, by decide⟩
  · unfold mmdAlignInit
    rw [hd]
    decide
  · have hmem : '-' ∈ pyStrip data :=
      mem_pyStrip (matchSepCell_mem hm) (by decide)
    unfold mmdAlignInit
    cases hps : pyStrip data with
    | nil => rw [hps] at hmem; cases hmem
    | cons c rest =>
      unfold mmdAlignCore
      split
      · rfl
      · show (if c = ':' then some (some Align.left)
          else if List.getLastD (c :: rest) c = ':' then
            some (some Align.right)
          else some none).isSome = true
        split
        · rfl
        · split <;> rfl

/-- C10 witness. -/
theorem mmd_align_column_partiality_witness :
    pyStrip [' '] = [] ∧ mmdAlignInit [' '] = none ∧
    matchSepCell '-' [':', '-'] = true ∧
    (mmdAlignInit [':', '-']).isSome = true := by
  have h := mmd_align_column_partiality
  exact ⟨by decide, h.1 [' '] (by decide), by decide,
    h.2.1 [':', '-'] (by decide)⟩
